import Mathlib

/-!
Verification of the indicator-computation and signal-generation core of the
tread-bot repository (src/main.py, src/analysis/technical_analysis.py,
src/indicators/custom_indicators.py, src/config/settings.py).

Embedding conventions:
* pandas float columns become `Nat → Option ℚ`; `none` models the NaN
  sentinel ("undefined"), and every comparison against NaN is false, as in
  IEEE floating point.
* numeric literals of the source are embedded as exact rationals;
* the only real-valued piece is the Bollinger standard deviation, whose
  square root is embedded over `ℝ`.
-/

/-- One OHLCV bar of the input series, a row of the DataFrame built by
`DataFetcher.fetch_ohlcv` (columns open, high, low, close, volume).  `open`
is a Lean keyword, so that field is called `open_`. -/
structure Bar where
  open_ : ℚ
  high : ℚ
  low : ℚ
  close : ℚ
  volume : ℚ
deriving DecidableEq

/-- The `close` column of a series of bars. -/
def closes (s : List Bar) : List ℚ := s.map Bar.close

/-- The `high` column of a series of bars. -/
def highs (s : List Bar) : List ℚ := s.map Bar.high

/-- The `low` column of a series of bars. -/
def lows (s : List Bar) : List ℚ := s.map Bar.low

/-- Trailing window of length `p` ending at position `i` inclusive (the
window pandas `rolling(window=p)` aggregates at position `i`). -/
def window (xs : List ℚ) (i p : Nat) : List ℚ := (xs.take (i + 1)).drop (i + 1 - p)

/-- pandas `Series.rolling(window=p)` with the default `min_periods = p`:
the aggregate at position `i` is defined exactly when a full window of `p`
values ending at `i` exists. -/
def rollingWindow (p : Nat) (xs : List ℚ) (i : Nat) : Option (List ℚ) :=
  if p ≤ i + 1 ∧ i < xs.length then some (window xs i p) else none

/-- Arithmetic mean of a list (pandas `.mean()` over a full window). -/
def mean (l : List ℚ) : ℚ := l.sum / l.length

/-- Maximum of a list (pandas `.max()` over a full, hence nonempty, window). -/
def listMax : List ℚ → ℚ
  | [] => 0
  | [x] => x
  | x :: y :: t => max x (listMax (y :: t))

/-- Minimum of a list (pandas `.min()` over a full, hence nonempty, window). -/
def listMin : List ℚ → ℚ
  | [] => 0
  | [x] => x
  | x :: y :: t => min x (listMin (y :: t))

/-- The series `delta.where(delta > 0, 0)` of `calculate_rsi`, where
`delta = close.diff()`.  `diff` puts NaN at position 0, and `where`
replaces it by 0 because `NaN > 0` is false. -/
def gains (xs : List ℚ) : List ℚ :=
  match xs with
  | [] => []
  | _ :: tail =>
      0 :: xs.zipWith (fun prev cur => if 0 < cur - prev then cur - prev else 0) tail

/-- The series `(-delta.where(delta < 0, 0))` of `calculate_rsi`: the negated
negative deltas, 0 elsewhere (including the replaced NaN at position 0). -/
def losses (xs : List ℚ) : List ℚ :=
  match xs with
  | [] => []
  | _ :: tail =>
      0 :: xs.zipWith (fun prev cur => if cur - prev < 0 then -(cur - prev) else 0) tail

/-- The local `gain` series of `TechnicalAnalyzer.calculate_rsi`:
`delta.where(delta > 0, 0).rolling(window=period).mean()`. -/
def rsi_gain (close : List ℚ) (period i : Nat) : Option ℚ :=
  (rollingWindow period (gains close) i).map mean

/-- The local `loss` series of `TechnicalAnalyzer.calculate_rsi`:
`(-delta.where(delta < 0, 0)).rolling(window=period).mean()`. -/
def rsi_loss (close : List ℚ) (period i : Nat) : Option ℚ :=
  (rollingWindow period (losses close) i).map mean

/-- The `RSI` column of `TechnicalAnalyzer.calculate_rsi`:
`RS = gain/loss`, `RSI = 100 - 100/(1+RS)`.  The source computes this with
IEEE floats: when `loss = 0` and `gain > 0`, `RS = +inf` and the formula
yields exactly 100; when `gain = loss = 0`, `RS = NaN` and RSI is NaN.
Both float outcomes are embedded explicitly here; the remaining case is
exact rational arithmetic. -/
def calculate_rsi (close : List ℚ) (period i : Nat) : Option ℚ :=
  (rsi_gain close period i).bind fun g =>
    (rsi_loss close period i).bind fun l =>
      if l = 0 then (if g = 0 then none else some 100)
      else some (100 - 100 / (1 + g / l))

/-- Tail of the `ewm(span, adjust=False).mean()` recurrence after the seed:
`y_t = prev*(1-α) + x_t*α`. -/
def ewmFrom (a prev : ℚ) : List ℚ → List ℚ
  | [] => []
  | x :: xs => (prev * (1 - a) + x * a) :: ewmFrom a (prev * (1 - a) + x * a) xs

/-- pandas `Series.ewm(span=s, adjust=False).mean()`: seeds at the first
value, then applies the recurrence with `α = 2/(span+1)`; it never produces
NaN on NaN-free input. -/
def ewm_mean (span : Nat) (xs : List ℚ) : List ℚ :=
  match xs with
  | [] => []
  | x :: t => x :: ewmFrom (2 / (span + 1 : ℚ)) x t

/-- The `MACD` column as a list: `ewm(short) - ewm(long)` of close
(`TechnicalAnalyzer.calculate_macd`). -/
def macd_line (close : List ℚ) (short long : Nat) : List ℚ :=
  List.zipWith (fun a b => a - b) (ewm_mean short close) (ewm_mean long close)

/-- The `MACD` column of `TechnicalAnalyzer.calculate_macd`. -/
def MACD (close : List ℚ) (short long i : Nat) : Option ℚ :=
  (macd_line close short long).get? i

/-- The `Signal_Line` column of `TechnicalAnalyzer.calculate_macd`:
`ewm(signal)` of the MACD column. -/
def Signal_Line (close : List ℚ) (short long signal i : Nat) : Option ℚ :=
  (ewm_mean signal (macd_line close short long)).get? i

/-- pandas sample variance of a window (`ddof = 1`):
`Σ (x - mean)² / (n - 1)`. -/
def sampleVar (l : List ℚ) : ℚ :=
  (l.map (fun x => (x - mean l) ^ 2)).sum / ((l.length : ℚ) - 1)

/-- pandas `.std()` over a full window (`ddof = 1`): NaN on windows of fewer
than 2 values (zero degrees of freedom), otherwise the square root of the
sample variance. -/
noncomputable def sampleStd (l : List ℚ) : Option ℝ :=
  if 2 ≤ l.length then some (Real.sqrt ((sampleVar l : ℚ) : ℝ)) else none

/-- The `BB_middle` column of `TechnicalAnalyzer.calculate_bollinger_bands`:
rolling mean of close. -/
def BB_middle (close : List ℚ) (period i : Nat) : Option ℚ :=
  (rollingWindow period close i).map mean

/-- The local `bb_std` series of `calculate_bollinger_bands`:
`close.rolling(window=period).std()`. -/
noncomputable def bb_std (close : List ℚ) (period i : Nat) : Option ℝ :=
  (rollingWindow period close i).bind sampleStd

/-- The `BB_upper` column: `BB_middle + bb_std * std_dev`. -/
noncomputable def BB_upper (close : List ℚ) (period : Nat) (std_dev : ℚ) (i : Nat) : Option ℝ :=
  (BB_middle close period i).bind fun m =>
    (bb_std close period i).map fun s => (m : ℝ) + s * (std_dev : ℝ)

/-- The `BB_lower` column: `BB_middle - bb_std * std_dev`. -/
noncomputable def BB_lower (close : List ℚ) (period : Nat) (std_dev : ℚ) (i : Nat) : Option ℝ :=
  (BB_middle close period i).bind fun m =>
    (bb_std close period i).map fun s => (m : ℝ) - s * (std_dev : ℝ)

/-- The local `high_max` series of
`TechnicalAnalyzer.calculate_fibonacci_levels`: rolling max of high. -/
def high_max (s : List Bar) (period i : Nat) : Option ℚ :=
  (rollingWindow period (highs s) i).map listMax

/-- The local `low_min` series of `calculate_fibonacci_levels`: rolling min
of low. -/
def low_min (s : List Bar) (period i : Nat) : Option ℚ :=
  (rollingWindow period (lows s) i).map listMin

/-- A Fibonacci level column: `low_min + (high_max - low_min) * c`. -/
def fibLevel (s : List Bar) (period i : Nat) (c : ℚ) : Option ℚ :=
  (low_min s period i).bind fun lo =>
    (high_max s period i).map fun hi => lo + (hi - lo) * c

/-- The `Fib_0` column: `low_min` itself. -/
def Fib_0 (s : List Bar) (period i : Nat) : Option ℚ := low_min s period i

/-- The `Fib_236` column. -/
def Fib_236 (s : List Bar) (period i : Nat) : Option ℚ := fibLevel s period i 0.236

/-- The `Fib_382` column. -/
def Fib_382 (s : List Bar) (period i : Nat) : Option ℚ := fibLevel s period i 0.382

/-- The `Fib_500` column. -/
def Fib_500 (s : List Bar) (period i : Nat) : Option ℚ := fibLevel s period i 0.500

/-- The `Fib_618` column. -/
def Fib_618 (s : List Bar) (period i : Nat) : Option ℚ := fibLevel s period i 0.618

/-- The `Fib_100` column: `high_max` itself. -/
def Fib_100 (s : List Bar) (period i : Nat) : Option ℚ := high_max s period i

/-- The `Support` column of `calculate_support_resistance`: rolling min of
low over `window` bars. -/
def Support (s : List Bar) (w i : Nat) : Option ℚ :=
  (rollingWindow w (lows s) i).map listMin

/-- The `Resistance` column of `calculate_support_resistance`: rolling max
of high over `window` bars. -/
def Resistance (s : List Bar) (w i : Nat) : Option ℚ :=
  (rollingWindow w (highs s) i).map listMax

/-- The `Momentum` column of `calculate_momentum`: `close.diff(period)`,
i.e. `close[i] - close[i-period]`, NaN while `i < period`. -/
def calculate_momentum (close : List ℚ) (period i : Nat) : Option ℚ :=
  if h : period ≤ i ∧ i < close.length then
    some (close.get ⟨i, h.2⟩ - close.get ⟨i - period, by omega⟩)
  else none

/-- The `PP` column of `calculate_pivot_points`: `(high+low+close)/3`,
defined at every bar. -/
def PP (s : List Bar) (i : Nat) : Option ℚ :=
  (s.get? i).map fun b => (b.high + b.low + b.close) / 3

/-- The `R1` column of `calculate_pivot_points`: `2*PP - low`. -/
def R1 (s : List Bar) (i : Nat) : Option ℚ :=
  (PP s i).bind fun pp => (s.get? i).map fun b => 2 * pp - b.low

/-- The `S1` column of `calculate_pivot_points`: `2*PP - high`. -/
def S1 (s : List Bar) (i : Nat) : Option ℚ :=
  (PP s i).bind fun pp => (s.get? i).map fun b => 2 * pp - b.high

/-- The `R2` column of `calculate_pivot_points`: `PP + (high - low)`. -/
def R2 (s : List Bar) (i : Nat) : Option ℚ :=
  (PP s i).bind fun pp => (s.get? i).map fun b => pp + (b.high - b.low)

/-- The `S2` column of `calculate_pivot_points`: `PP - (high - low)`. -/
def S2 (s : List Bar) (i : Nat) : Option ℚ :=
  (PP s i).bind fun pp => (s.get? i).map fun b => pp - (b.high - b.low)

/-- The `rsi_oversold` threshold of `TA_PARAMS` (settings.py). -/
def rsi_oversold : ℚ := 30

/-- The `rsi_overbought` threshold of `TA_PARAMS` (settings.py). -/
def rsi_overbought : ℚ := 70

/-- IEEE float `<` where `none` models NaN: every comparison involving NaN
is false, which is exactly how the Python source silently skips a rule whose
indicator is NaN. -/
def nanLT : Option ℚ → Option ℚ → Bool
  | some a, some b => decide (a < b)
  | _, _ => false

/-- The possible values of `signals['action']` other than the initial
`None`. -/
inductive TradeAction where
  | BUY : TradeAction
  | SELL : TradeAction
deriving DecidableEq

/-- The reason strings appended by `generate_trading_signals`, one
constructor per rule branch (the interpolated indicator value of the Python
f-string is elided). -/
inductive Reason where
  | rsiOversold : Reason
  | rsiOverbought : Reason
  | macdAboveSignal : Reason
  | macdBelowSignal : Reason
  | priceBelowLowerBB : Reason
  | priceAboveUpperBB : Reason
deriving DecidableEq

/-- The `signals` dict built by `generate_trading_signals`. -/
structure Signals where
  action : Option TradeAction
  confidence : ℚ
  reasons : List Reason
deriving DecidableEq

/-- The values `generate_trading_signals` reads from the enriched frame:
the `.iloc[-1]` entry of each column it consults.  Indicator columns may be
NaN (`none`); `close` is raw input data. -/
structure Row where
  close : ℚ
  RSI : Option ℚ
  MACD : Option ℚ
  Signal_Line : Option ℚ
  BB_lower : Option ℚ
  BB_upper : Option ℚ

/-- `generate_trading_signals` of main.py: three rule groups evaluated in
order (RSI, MACD, Bollinger), each `if`/`elif` mutating the shared
`signals` dict — overwriting `action`, adding to `confidence`, appending a
reason.  Comparisons are float comparisons, so a NaN indicator fires
nothing. -/
def generate_trading_signals (data : Row) : Signals :=
  let signals : Signals := ⟨none, 0, []⟩
  let signals :=
    if nanLT data.RSI (some rsi_oversold) then
      ⟨some TradeAction.BUY, signals.confidence + 3/10, signals.reasons ++ [Reason.rsiOversold]⟩
    else if nanLT (some rsi_overbought) data.RSI then
      ⟨some TradeAction.SELL, signals.confidence + 3/10, signals.reasons ++ [Reason.rsiOverbought]⟩
    else signals
  let signals :=
    if nanLT data.Signal_Line data.MACD then
      ⟨some TradeAction.BUY, signals.confidence + 3/10, signals.reasons ++ [Reason.macdAboveSignal]⟩
    else if nanLT data.MACD data.Signal_Line then
      ⟨some TradeAction.SELL, signals.confidence + 3/10, signals.reasons ++ [Reason.macdBelowSignal]⟩
    else signals
  let signals :=
    if nanLT (some data.close) data.BB_lower then
      ⟨some TradeAction.BUY, signals.confidence + 2/10, signals.reasons ++ [Reason.priceBelowLowerBB]⟩
    else if nanLT data.BB_upper (some data.close) then
      ⟨some TradeAction.SELL, signals.confidence + 2/10, signals.reasons ++ [Reason.priceAboveUpperBB]⟩
    else signals
  signals

/-- Specification-side reading of the RSI rule group: the action, weight
and reason of the rule that fires, if any.  Used to compare
`generate_trading_signals` against the spec's description of the rule
protocol. -/
def rsiRuleFired (data : Row) : Option (TradeAction × ℚ × Reason) :=
  if nanLT data.RSI (some rsi_oversold) then some (TradeAction.BUY, 3/10, Reason.rsiOversold)
  else if nanLT (some rsi_overbought) data.RSI then some (TradeAction.SELL, 3/10, Reason.rsiOverbought)
  else none

/-- Specification-side reading of the MACD rule group. -/
def macdRuleFired (data : Row) : Option (TradeAction × ℚ × Reason) :=
  if nanLT data.Signal_Line data.MACD then some (TradeAction.BUY, 3/10, Reason.macdAboveSignal)
  else if nanLT data.MACD data.Signal_Line then some (TradeAction.SELL, 3/10, Reason.macdBelowSignal)
  else none

/-- Specification-side reading of the Bollinger rule group. -/
def bbRuleFired (data : Row) : Option (TradeAction × ℚ × Reason) :=
  if nanLT (some data.close) data.BB_lower then some (TradeAction.BUY, 2/10, Reason.priceBelowLowerBB)
  else if nanLT data.BB_upper (some data.close) then some (TradeAction.SELL, 2/10, Reason.priceAboveUpperBB)
  else none

/-- The rules that fire on a row, in the spec's fixed evaluation order:
RSI, then MACD, then Bollinger. -/
def firedRules (data : Row) : List (TradeAction × ℚ × Reason) :=
  [rsiRuleFired data, macdRuleFired data, bbRuleFired data].reduceOption

/-- The failure kinds of the analysis pipeline.  `fetch_and_analyze_data`
reports an empty input via `st.error` and `return None`; that reject path
is embedded as the `EmptySeries` failure named by the spec. -/
inductive AnalysisError where
  | EmptySeries : AnalysisError
deriving DecidableEq

/-- The enriched frame produced by the analysis pipeline: the input bars
plus every indicator column (`IndicatorSet`). -/
structure DataFrame where
  bars : List Bar
  RSI : Nat → Option ℚ
  MACD : Nat → Option ℚ
  Signal_Line : Nat → Option ℚ
  BB_middle : Nat → Option ℚ
  BB_upper : Nat → Option ℝ
  BB_lower : Nat → Option ℝ
  Fib_0 : Nat → Option ℚ
  Fib_236 : Nat → Option ℚ
  Fib_382 : Nat → Option ℚ
  Fib_500 : Nat → Option ℚ
  Fib_618 : Nat → Option ℚ
  Fib_100 : Nat → Option ℚ
  Support : Nat → Option ℚ
  Resistance : Nat → Option ℚ
  Momentum : Nat → Option ℚ
  PP : Nat → Option ℚ
  R1 : Nat → Option ℚ
  S1 : Nat → Option ℚ
  R2 : Nat → Option ℚ
  S2 : Nat → Option ℚ

/-- `fetch_and_analyze_data` of main.py, after the external fetch: an empty
frame is rejected (`st.error` + `return None`, embedded as the
`EmptySeries` failure) before any indicator is computed; otherwise
`TechnicalAnalyzer.calculate_all_indicators` runs (RSI, MACD, Bollinger,
Fibonacci with their settings.py defaults) followed by
`calculate_support_resistance`, `calculate_momentum` and
`calculate_pivot_points`. -/
noncomputable def fetch_and_analyze_data (bars : List Bar) : Except AnalysisError DataFrame :=
  if bars.isEmpty then Except.error AnalysisError.EmptySeries
  else Except.ok
    ⟨bars,
     calculate_rsi (closes bars) 14,
     MACD (closes bars) 12 26,
     Signal_Line (closes bars) 12 26 9,
     BB_middle (closes bars) 20,
     BB_upper (closes bars) 20 2,
     BB_lower (closes bars) 20 2,
     Fib_0 bars 14,
     Fib_236 bars 14,
     Fib_382 bars 14,
     Fib_500 bars 14,
     Fib_618 bars 14,
     Fib_100 bars 14,
     Support bars 20,
     Resistance bars 20,
     calculate_momentum (closes bars) 14,
     PP bars,
     R1 bars,
     S1 bars,
     R2 bars,
     S2 bars⟩

theorem nanLT_none_left (b : Option ℚ) : nanLT none b = false := rfl

theorem nanLT_none_right (a : Option ℚ) : nanLT a none = false := by
  cases a <;> rfl

theorem nanLT_some_some (a b : ℚ) : nanLT (some a) (some b) = decide (a < b) := rfl

theorem rollingWindow_eq_some {p : Nat} {xs : List ℚ} {i : Nat} {w : List ℚ}
    (h : rollingWindow p xs i = some w) :
    w = window xs i p ∧ p ≤ i + 1 ∧ i < xs.length := by
  unfold rollingWindow at h
  split at h
  · exact ⟨(Option.some_inj.mp h).symm, by assumption⟩
  · cases h

theorem rollingWindow_isSome (p : Nat) (xs : List ℚ) (i : Nat) :
    (rollingWindow p xs i).isSome ↔ (p ≤ i + 1 ∧ i < xs.length) := by
  unfold rollingWindow
  split <;> simp_all

theorem window_length {p : Nat} {xs : List ℚ} {i : Nat} (h1 : p ≤ i + 1) (h2 : i < xs.length) :
    (window xs i p).length = p := by
  unfold window
  rw [List.length_drop, List.length_take]
  omega

theorem mem_window_self {p : Nat} {xs : List ℚ} {i : Nat} (hp : 1 ≤ p) (h1 : p ≤ i + 1)
    (h2 : i < xs.length) : xs[i] ∈ window xs i p := by
  have hlen : (window xs i p).length = p := window_length h1 h2
  have hip : p - 1 < (window xs i p).length := by omega
  have hidx : i + 1 - p + (p - 1) = i := by omega
  have hkey : (window xs i p)[p - 1] = xs[i] := by
    show ((xs.take (i + 1)).drop (i + 1 - p))[p - 1] = xs[i]
    rw [List.getElem_drop, List.getElem_take]
    simp only [hidx]
  rw [← hkey]
  exact List.getElem_mem hip

theorem mem_of_mem_window {a : ℚ} {xs : List ℚ} {i p : Nat} (ha : a ∈ window xs i p) : a ∈ xs := by
  unfold window at ha
  exact List.Sublist.mem (List.Sublist.mem ha (List.drop_sublist _ _)) (List.take_sublist _ _)

theorem le_listMax {a : ℚ} : ∀ (l : List ℚ), a ∈ l → a ≤ listMax l
  | [], h => absurd h (List.not_mem_nil a)
  | [x], h => by
      rcases List.mem_singleton.mp h with rfl
      simp [listMax]
  | x :: y :: t, h => by
      rcases List.mem_cons.mp h with rfl | h2
      · simp only [listMax]
        exact le_max_left _ _
      · simp only [listMax]
        exact le_max_of_le_right (le_listMax (y :: t) h2)

theorem listMin_le {a : ℚ} : ∀ (l : List ℚ), a ∈ l → listMin l ≤ a
  | [], h => absurd h (List.not_mem_nil a)
  | [x], h => by
      rcases List.mem_singleton.mp h with rfl
      simp [listMin]
  | x :: y :: t, h => by
      rcases List.mem_cons.mp h with rfl | h2
      · simp only [listMin]
        exact min_le_left _ _
      · simp only [listMin]
        exact min_le_of_right_le (listMin_le (y :: t) h2)

theorem zipWith_nonneg {f : ℚ → ℚ → ℚ} (hf : ∀ a b, 0 ≤ f a b) :
    ∀ (l1 l2 : List ℚ), ∀ c ∈ List.zipWith f l1 l2, 0 ≤ c
  | [], _, c, hc => by simp at hc
  | _ :: _, [], c, hc => by simp at hc
  | a :: t1, b :: t2, c, hc => by
      rcases List.mem_cons.mp (by simpa using hc) with rfl | h2
      · exact hf a b
      · exact zipWith_nonneg hf t1 t2 c h2

theorem gains_nonneg (xs : List ℚ) : ∀ a ∈ gains xs, 0 ≤ a := by
  cases xs with
  | nil => simp [gains]
  | cons x t =>
      intro a ha
      rcases List.mem_cons.mp (by simpa [gains] using ha) with rfl | h2
      · exact le_refl 0
      · refine zipWith_nonneg ?_ (x :: t) t a h2
        intro a b
        dsimp only
        split <;> linarith

theorem losses_nonneg (xs : List ℚ) : ∀ a ∈ losses xs, 0 ≤ a := by
  cases xs with
  | nil => simp [losses]
  | cons x t =>
      intro a ha
      rcases List.mem_cons.mp (by simpa [losses] using ha) with rfl | h2
      · exact le_refl 0
      · refine zipWith_nonneg ?_ (x :: t) t a h2
        intro a b
        dsimp only
        split <;> linarith

theorem gains_length (xs : List ℚ) : (gains xs).length = xs.length := by
  cases xs with
  | nil => rfl
  | cons x t =>
      simp [gains, List.length_zipWith]

theorem losses_length (xs : List ℚ) : (losses xs).length = xs.length := by
  cases xs with
  | nil => rfl
  | cons x t =>
      simp [losses, List.length_zipWith]

theorem mean_nonneg {l : List ℚ} (h : ∀ a ∈ l, 0 ≤ a) : 0 ≤ mean l :=
  div_nonneg (List.sum_nonneg h) (by positivity)

theorem rsi_gain_nonneg {close : List ℚ} {p i : Nat} {g : ℚ}
    (h : rsi_gain close p i = some g) : 0 ≤ g := by
  unfold rsi_gain at h
  cases hw : rollingWindow p (gains close) i with
  | none => rw [hw] at h; cases h
  | some w =>
      rw [hw] at h
      obtain rfl : mean w = g := Option.some_inj.mp h
      exact mean_nonneg fun a ha =>
        gains_nonneg close a (mem_of_mem_window ((rollingWindow_eq_some hw).1 ▸ ha))

theorem rsi_loss_nonneg {close : List ℚ} {p i : Nat} {l : ℚ}
    (h : rsi_loss close p i = some l) : 0 ≤ l := by
  unfold rsi_loss at h
  cases hw : rollingWindow p (losses close) i with
  | none => rw [hw] at h; cases h
  | some w =>
      rw [hw] at h
      obtain rfl : mean w = l := Option.some_inj.mp h
      exact mean_nonneg fun a ha =>
        losses_nonneg close a (mem_of_mem_window ((rollingWindow_eq_some hw).1 ▸ ha))

theorem bb_std_nonneg {close : List ℚ} {p i : Nat} {s : ℝ}
    (h : bb_std close p i = some s) : 0 ≤ s := by
  unfold bb_std at h
  cases hw : rollingWindow p close i with
  | none => rw [hw] at h; cases h
  | some w =>
      rw [hw] at h
      simp only [Option.some_bind] at h
      unfold sampleStd at h
      split at h
      · obtain rfl : Real.sqrt (sampleVar w : ℝ) = s := Option.some_inj.mp h
        exact Real.sqrt_nonneg _
      · cases h

/-- C1: the claim says that when the RSI column is NaN at the evaluation
point, `generate_trading_signals` must fail with `InsufficientHistory`.
The code does the opposite: a NaN RSI makes both float comparisons of the
RSI rule false, the rule is silently skipped, and a plain `Signal` is
returned — here BUY with confidence 0.3 from the MACD rule alone.  This
theorem evaluates the engine at that failing input, exhibiting the
divergence (the engine has no failure path at all). -/
theorem nan_rsi_returns_signal :
    generate_trading_signals ⟨10, none, some 1, some 0, some 5, some 15⟩ =
      ⟨some TradeAction.BUY, 3/10, [Reason.macdAboveSignal]⟩ := by
  simp only [generate_trading_signals, nanLT_none_left, nanLT_none_right, nanLT_some_some]
  norm_num

/-- C2: on an empty input series the analysis pipeline rejects the input
(the `data.empty` early return of `fetch_and_analyze_data`, embedded as the
`EmptySeries` failure) before any indicator is computed: the result is the
error, never an enriched frame. -/
theorem empty_series_rejected :
    fetch_and_analyze_data [] = Except.error AnalysisError.EmptySeries := rfl

/-- C3: on any latest row with RSI = 25 (< 30, oversold), MACD above the
signal line and close below the lower Bollinger band, the Signal Engine
yields action BUY, confidence 0.3 + 0.3 + 0.2 = 0.8, and exactly the three
reasons of the fired rules in rule order (RSI, MACD, Bollinger). -/
theorem buy_signal_all_rules (data : Row) (m sl bl : ℚ)
    (hrsi : data.RSI = some 25)
    (hm : data.MACD = some m) (hs : data.Signal_Line = some sl) (hms : sl < m)
    (hbl : data.BB_lower = some bl) (hcb : data.close < bl) :
    (generate_trading_signals data).action = some TradeAction.BUY ∧
    (generate_trading_signals data).confidence = 3/10 + 3/10 + 2/10 ∧
    (generate_trading_signals data).confidence = 4/5 ∧
    (generate_trading_signals data).reasons =
      [Reason.rsiOversold, Reason.macdAboveSignal, Reason.priceBelowLowerBB] := by
  have h1 : nanLT data.RSI (some rsi_oversold) = true := by
    rw [hrsi]
    simp only [nanLT, rsi_oversold, decide_eq_true_eq]
    norm_num
  have h2 : nanLT data.Signal_Line data.MACD = true := by
    rw [hm, hs]
    simpa only [nanLT, decide_eq_true_eq] using hms
  have h3 : nanLT (some data.close) data.BB_lower = true := by
    rw [hbl]
    simpa only [nanLT, decide_eq_true_eq] using hcb
  simp only [generate_trading_signals, h1, h2, h3, if_true]
  norm_num

/-- Witness for C3: a concrete row with RSI 25, MACD 1 above signal line 0,
and close 1 below the lower band 2. -/
theorem buy_signal_all_rules_witness :
    ((⟨1, some 25, some 1, some 0, some 2, some 3⟩ : Row).RSI = some 25 ∧
     (0:ℚ) < 1 ∧ (1:ℚ) < 2) ∧
    ((generate_trading_signals ⟨1, some 25, some 1, some 0, some 2, some 3⟩).action =
       some TradeAction.BUY ∧
     (generate_trading_signals ⟨1, some 25, some 1, some 0, some 2, some 3⟩).confidence =
       3/10 + 3/10 + 2/10 ∧
     (generate_trading_signals ⟨1, some 25, some 1, some 0, some 2, some 3⟩).confidence = 4/5 ∧
     (generate_trading_signals ⟨1, some 25, some 1, some 0, some 2, some 3⟩).reasons =
       [Reason.rsiOversold, Reason.macdAboveSignal, Reason.priceBelowLowerBB]) :=
  ⟨⟨rfl, by norm_num, by norm_num⟩,
   buy_signal_all_rules ⟨1, some 25, some 1, some 0, some 2, some 3⟩ 1 0 2
     rfl rfl rfl (by norm_num) rfl (by norm_num)⟩

/-- C5: wherever the RSI column is defined its value lies in [0, 100], and
it equals exactly 100 precisely when the rolling loss is 0 and the rolling
gain is positive (the source's float division by a zero loss produces +inf
and hence exactly 100 — embedded explicitly, not left platform-dependent). -/
theorem rsi_range (close : List ℚ) (p i : Nat) (x : ℚ)
    (hx : calculate_rsi close p i = some x) :
    0 ≤ x ∧ x ≤ 100 ∧
      (x = 100 ↔ rsi_loss close p i = some 0 ∧ ∃ g, rsi_gain close p i = some g ∧ 0 < g) := by
  unfold calculate_rsi at hx
  cases hg : rsi_gain close p i with
  | none => rw [hg] at hx; cases hx
  | some g =>
      cases hl : rsi_loss close p i with
      | none => rw [hg, hl] at hx; cases hx
      | some l =>
          rw [hg, hl] at hx
          simp only [Option.some_bind] at hx
          have hg0 : 0 ≤ g := rsi_gain_nonneg hg
          have hl0 : 0 ≤ l := rsi_loss_nonneg hl
          by_cases hlz : l = 0
          · rw [if_pos hlz] at hx
            by_cases hgz : g = 0
            · rw [if_pos hgz] at hx; cases hx
            · rw [if_neg hgz] at hx
              obtain rfl : (100:ℚ) = x := Option.some_inj.mp hx
              subst hlz
              refine ⟨by norm_num, le_refl _, ?_⟩
              constructor
              · intro _
                exact ⟨rfl, g, rfl, lt_of_le_of_ne hg0 (Ne.symm hgz)⟩
              · intro _
                rfl
          · rw [if_neg hlz] at hx
            obtain rfl : 100 - 100 / (1 + g / l) = x := Option.some_inj.mp hx
            have hlpos : 0 < l := lt_of_le_of_ne hl0 (Ne.symm hlz)
            have hgl : 0 ≤ g / l := div_nonneg hg0 hlpos.le
            have h1p : (0:ℚ) < 1 + g / l := by linarith
            have hdivpos : 0 < 100 / (1 + g / l) := by positivity
            have hdivle : 100 / (1 + g / l) ≤ 100 := by
              rw [div_le_iff₀ h1p]
              nlinarith
            refine ⟨by linarith, by linarith, ?_⟩
            constructor
            · intro h100
              exfalso
              linarith
            · rintro ⟨hl0eq, -⟩
              exfalso
              exact hlz (Option.some_inj.mp hl0eq)

/-- Witness for C5: the strictly rising series [1, 2] with period 2 has, at
position 1, rolling loss 0 and rolling gain 1/2, so RSI is exactly 100. -/
theorem rsi_range_witness :
    calculate_rsi [1, 2] 2 1 = some 100 ∧
    (0 ≤ (100:ℚ) ∧ (100:ℚ) ≤ 100 ∧
      ((100:ℚ) = 100 ↔
        rsi_loss [1, 2] 2 1 = some 0 ∧ ∃ g, rsi_gain [1, 2] 2 1 = some g ∧ 0 < g)) :=
  ⟨by
     norm_num [calculate_rsi, rsi_gain, rsi_loss, rollingWindow, window, gains, losses, mean,
       List.zipWith_cons_cons, List.sum_cons, List.sum_nil],
   rsi_range [1, 2] 2 1 100 (by
     norm_num [calculate_rsi, rsi_gain, rsi_loss, rollingWindow, window, gains, losses, mean,
       List.zipWith_cons_cons, List.sum_cons, List.sum_nil])⟩

/-- C4: the Signal Engine evaluates its rule groups in the fixed order RSI,
then MACD, then Bollinger; the result's action equals the action of the
last rule that fired (a later rule masks an earlier one, also when it fires
in the opposite direction), while the confidence still accumulates the
weight of every fired rule and the reasons record every fired rule in rule
order. -/
theorem last_rule_wins (data : Row) :
    (generate_trading_signals data).action =
      (List.map (fun r => r.1) (firedRules data)).getLast? ∧
    (generate_trading_signals data).confidence =
      (List.map (fun r => r.2.1) (firedRules data)).sum ∧
    (generate_trading_signals data).reasons =
      List.map (fun r => r.2.2) (firedRules data) := by
  cases h1 : nanLT data.RSI (some rsi_oversold) <;>
  cases h2 : nanLT (some rsi_overbought) data.RSI <;>
  cases h3 : nanLT data.Signal_Line data.MACD <;>
  cases h4 : nanLT data.MACD data.Signal_Line <;>
  cases h5 : nanLT (some data.close) data.BB_lower <;>
  cases h6 : nanLT data.BB_upper (some data.close) <;>
    simp [generate_trading_signals, firedRules, rsiRuleFired, macdRuleFired, bbRuleFired,
      h1, h2, h3, h4, h5, h6, List.reduceOption] <;>
    norm_num

/-- C10: consistency invariant of the result of the Signal Engine: the
action is none exactly when the confidence is 0, exactly when the reasons
list is empty; the confidence equals the sum of the per-rule weights of the
fired rules and the length of the reasons equals the number of fired
rules. -/
theorem signal_consistency (data : Row) :
    ((generate_trading_signals data).action = none ↔
      (generate_trading_signals data).confidence = 0) ∧
    ((generate_trading_signals data).confidence = 0 ↔
      (generate_trading_signals data).reasons = []) ∧
    (generate_trading_signals data).confidence =
      (List.map (fun r => r.2.1) (firedRules data)).sum ∧
    (generate_trading_signals data).reasons.length = (firedRules data).length := by
  cases h1 : nanLT data.RSI (some rsi_oversold) <;>
  cases h2 : nanLT (some rsi_overbought) data.RSI <;>
  cases h3 : nanLT data.Signal_Line data.MACD <;>
  cases h4 : nanLT data.MACD data.Signal_Line <;>
  cases h5 : nanLT (some data.close) data.BB_lower <;>
  cases h6 : nanLT data.BB_upper (some data.close) <;>
    simp [generate_trading_signals, firedRules, rsiRuleFired, macdRuleFired, bbRuleFired,
      h1, h2, h3, h4, h5, h6, List.reduceOption] <;>
    norm_num

theorem isSome_map {α β : Type} (f : α → β) (o : Option α) :
    (o.map f).isSome = o.isSome := by
  cases o <;> rfl

theorem rollingMap_isSome (f : List ℚ → ℚ) (p : Nat) (xs : List ℚ) (i : Nat) :
    ((rollingWindow p xs i).map f).isSome ↔ (p ≤ i + 1 ∧ i < xs.length) := by
  rw [isSome_map]
  exact rollingWindow_isSome p xs i

theorem closes_length (s : List Bar) : (closes s).length = s.length := List.length_map s _

theorem highs_length (s : List Bar) : (highs s).length = s.length := List.length_map s _

theorem lows_length (s : List Bar) : (lows s).length = s.length := List.length_map s _

theorem BB_middle_isSome (close : List ℚ) (p i : Nat) :
    (BB_middle close p i).isSome ↔ (p ≤ i + 1 ∧ i < close.length) :=
  rollingMap_isSome mean p close i

theorem bb_std_isSome (close : List ℚ) (p i : Nat) :
    (bb_std close p i).isSome ↔ (p ≤ i + 1 ∧ i < close.length ∧ 2 ≤ p) := by
  unfold bb_std rollingWindow
  by_cases hc : p ≤ i + 1 ∧ i < close.length
  · rw [if_pos hc]
    simp only [Option.some_bind]
    unfold sampleStd
    have hwl : (window close i p).length = p := window_length hc.1 hc.2
    by_cases h2 : 2 ≤ p
    · rw [if_pos (by omega : 2 ≤ (window close i p).length)]
      simp [hc.1, hc.2, h2]
    · rw [if_neg (by omega : ¬ 2 ≤ (window close i p).length)]
      simp [h2]
  · rw [if_neg hc]
    simp only [Option.none_bind, Option.isSome_none, Bool.false_eq_true, false_iff]
    rintro ⟨a, b, -⟩
    exact hc ⟨a, b⟩

theorem BB_upper_isSome (close : List ℚ) (p : Nat) (d : ℚ) (i : Nat) :
    (BB_upper close p d i).isSome ↔ (p ≤ i + 1 ∧ i < close.length ∧ 2 ≤ p) := by
  unfold BB_upper
  cases hm : BB_middle close p i with
  | none =>
      have hcond : ¬(p ≤ i + 1 ∧ i < close.length) := by
        rw [← BB_middle_isSome close p i, hm]
        simp
      simp only [Option.none_bind, Option.isSome_none, Bool.false_eq_true, false_iff]
      rintro ⟨a, b, -⟩
      exact hcond ⟨a, b⟩
  | some m =>
      simp only [Option.some_bind]
      rw [isSome_map]
      exact bb_std_isSome close p i

theorem BB_lower_isSome (close : List ℚ) (p : Nat) (d : ℚ) (i : Nat) :
    (BB_lower close p d i).isSome ↔ (p ≤ i + 1 ∧ i < close.length ∧ 2 ≤ p) := by
  unfold BB_lower
  cases hm : BB_middle close p i with
  | none =>
      have hcond : ¬(p ≤ i + 1 ∧ i < close.length) := by
        rw [← BB_middle_isSome close p i, hm]
        simp
      simp only [Option.none_bind, Option.isSome_none, Bool.false_eq_true, false_iff]
      rintro ⟨a, b, -⟩
      exact hcond ⟨a, b⟩
  | some m =>
      simp only [Option.some_bind]
      rw [isSome_map]
      exact bb_std_isSome close p i

theorem low_min_isSome (s : List Bar) (p i : Nat) :
    (low_min s p i).isSome ↔ (p ≤ i + 1 ∧ i < s.length) := by
  unfold low_min
  rw [rollingMap_isSome, lows_length]

theorem high_max_isSome (s : List Bar) (p i : Nat) :
    (high_max s p i).isSome ↔ (p ≤ i + 1 ∧ i < s.length) := by
  unfold high_max
  rw [rollingMap_isSome, highs_length]

theorem fibLevel_isSome (s : List Bar) (p i : Nat) (c : ℚ) :
    (fibLevel s p i c).isSome ↔ (p ≤ i + 1 ∧ i < s.length) := by
  unfold fibLevel
  cases hlo : low_min s p i with
  | none =>
      have hcond : ¬(p ≤ i + 1 ∧ i < s.length) := by
        rw [← low_min_isSome s p i, hlo]
        simp
      simp only [Option.none_bind, Option.isSome_none, Bool.false_eq_true, false_iff]
      exact hcond
  | some lo =>
      simp only [Option.some_bind]
      rw [isSome_map]
      exact high_max_isSome s p i

theorem rsi_gain_isSome (close : List ℚ) (p i : Nat) :
    (rsi_gain close p i).isSome ↔ (p ≤ i + 1 ∧ i < close.length) := by
  unfold rsi_gain
  rw [rollingMap_isSome, gains_length]

theorem rsi_loss_isSome (close : List ℚ) (p i : Nat) :
    (rsi_loss close p i).isSome ↔ (p ≤ i + 1 ∧ i < close.length) := by
  unfold rsi_loss
  rw [rollingMap_isSome, losses_length]

theorem calculate_momentum_isSome (close : List ℚ) (p i : Nat) :
    (calculate_momentum close p i).isSome ↔ (p ≤ i ∧ i < close.length) := by
  unfold calculate_momentum
  split <;> simp_all

theorem calculate_rsi_isSome (close : List ℚ) (p i : Nat) :
    (calculate_rsi close p i).isSome ↔
      (p ≤ i + 1 ∧ i < close.length ∧
        ¬(rsi_gain close p i = some 0 ∧ rsi_loss close p i = some 0)) := by
  unfold calculate_rsi
  cases hg : rsi_gain close p i with
  | none =>
      have hc : ¬(p ≤ i + 1 ∧ i < close.length) := by
        rw [← rsi_gain_isSome close p i, hg]
        simp
      simp only [Option.none_bind, Option.isSome_none, Bool.false_eq_true, false_iff]
      rintro ⟨a, b, -⟩
      exact hc ⟨a, b⟩
  | some g =>
      have hc : p ≤ i + 1 ∧ i < close.length := by
        rw [← rsi_gain_isSome close p i, hg]
        simp
      cases hl : rsi_loss close p i with
      | none =>
          exfalso
          have : (rsi_loss close p i).isSome := (rsi_loss_isSome close p i).mpr hc
          rw [hl] at this
          cases this
      | some l =>
          simp only [Option.some_bind]
          by_cases hlz : l = 0
          · subst hlz
            by_cases hgz : g = 0
            · subst hgz
              rw [if_pos rfl, if_pos rfl]
              simp [hc.1, hc.2]
            · rw [if_pos rfl, if_neg hgz]
              simp [hc.1, hc.2, hgz]
          · rw [if_neg hlz]
            simp [hc.1, hc.2, hlz]

/-- C6 counterexample: the claim as stated includes Momentum among the
indicators whose first p-1 positions are undefined with position p-1
onward defined, but `close.diff(period)` is undefined for the first p
positions: on a 14-bar series with period 14, position 13 = p-1 is still
undefined. -/
theorem rolling_prefix_counterexample :
    ¬ (∀ (xs : List ℚ) (p i : Nat), 1 ≤ p → p - 1 ≤ i → i < xs.length →
        (calculate_momentum xs p i).isSome = true) := by
  intro h
  have h14 := h (List.replicate 14 1) 14 13 (by norm_num) (by norm_num)
    (by rw [List.length_replicate]; norm_num)
  rw [calculate_momentum_isSome, List.length_replicate] at h14
  omega

/-- C6 amended: for every period p, the rolling columns Bollinger middle,
Fibonacci levels, Support and Resistance are defined exactly from position
p-1 on; Bollinger upper/lower additionally require p ≥ 2 (the sample
standard deviation of a single value is undefined); Momentum is defined
exactly from position p on; and RSI is defined from position p-1 on except
where the rolling gain and loss are both zero (flat window), where it is
undefined. -/
theorem rolling_prefix_amended (s : List Bar) (p i : Nat) (d : ℚ) :
    ((BB_middle (closes s) p i).isSome ↔ (p - 1 ≤ i ∧ i < s.length)) ∧
    ((BB_upper (closes s) p d i).isSome ↔ (p - 1 ≤ i ∧ i < s.length ∧ 2 ≤ p)) ∧
    ((BB_lower (closes s) p d i).isSome ↔ (p - 1 ≤ i ∧ i < s.length ∧ 2 ≤ p)) ∧
    ((Fib_0 s p i).isSome ↔ (p - 1 ≤ i ∧ i < s.length)) ∧
    ((Fib_236 s p i).isSome ↔ (p - 1 ≤ i ∧ i < s.length)) ∧
    ((Fib_382 s p i).isSome ↔ (p - 1 ≤ i ∧ i < s.length)) ∧
    ((Fib_500 s p i).isSome ↔ (p - 1 ≤ i ∧ i < s.length)) ∧
    ((Fib_618 s p i).isSome ↔ (p - 1 ≤ i ∧ i < s.length)) ∧
    ((Fib_100 s p i).isSome ↔ (p - 1 ≤ i ∧ i < s.length)) ∧
    ((Support s p i).isSome ↔ (p - 1 ≤ i ∧ i < s.length)) ∧
    ((Resistance s p i).isSome ↔ (p - 1 ≤ i ∧ i < s.length)) ∧
    ((calculate_momentum (closes s) p i).isSome ↔ (p ≤ i ∧ i < s.length)) ∧
    ((calculate_rsi (closes s) p i).isSome ↔
      (p - 1 ≤ i ∧ i < s.length ∧
        ¬(rsi_gain (closes s) p i = some 0 ∧ rsi_loss (closes s) p i = some 0))) := by
  refine ⟨?_, ?_, ?_, ?_, ?_, ?_, ?_, ?_, ?_, ?_, ?_, ?_, ?_⟩
  · rw [BB_middle_isSome, closes_length]
    omega
  · rw [BB_upper_isSome, closes_length]
    omega
  · rw [BB_lower_isSome, closes_length]
    omega
  · rw [show Fib_0 s p i = low_min s p i from rfl, low_min_isSome]
    omega
  · rw [show Fib_236 s p i = fibLevel s p i 0.236 from rfl, fibLevel_isSome]
    omega
  · rw [show Fib_382 s p i = fibLevel s p i 0.382 from rfl, fibLevel_isSome]
    omega
  · rw [show Fib_500 s p i = fibLevel s p i 0.500 from rfl, fibLevel_isSome]
    omega
  · rw [show Fib_618 s p i = fibLevel s p i 0.618 from rfl, fibLevel_isSome]
    omega
  · rw [show Fib_100 s p i = high_max s p i from rfl, high_max_isSome]
    omega
  · rw [show Support s p i = low_min s p i from rfl, low_min_isSome]
    omega
  · rw [show Resistance s p i = high_max s p i from rfl, high_max_isSome]
    omega
  · rw [calculate_momentum_isSome, closes_length]
  · rw [calculate_rsi_isSome, closes_length]
    constructor
    · rintro ⟨a, b, c⟩
      exact ⟨by omega, b, c⟩
    · rintro ⟨a, b, c⟩
      exact ⟨by omega, b, c⟩

/-- C7: at every position where the Bollinger columns are defined, and for
any non-negative standard-deviation multiplier, BB_upper ≥ BB_middle ≥
BB_lower: the band offset is a non-negative standard deviation times a
non-negative multiplier. -/
theorem bollinger_order (close : List ℚ) (p : Nat) (d : ℚ) (i : Nat) (u l : ℝ) (m : ℚ)
    (hd : 0 ≤ d)
    (hu : BB_upper close p d i = some u)
    (hm : BB_middle close p i = some m)
    (hl : BB_lower close p d i = some l) :
    l ≤ (m : ℝ) ∧ (m : ℝ) ≤ u := by
  unfold BB_upper at hu
  unfold BB_lower at hl
  rw [hm] at hu hl
  simp only [Option.some_bind] at hu hl
  cases hs : bb_std close p i with
  | none =>
      rw [hs] at hu
      cases hu
  | some sd =>
      rw [hs] at hu hl
      simp only [Option.map_some'] at hu hl
      have hequ : (m : ℝ) + sd * (d : ℝ) = u := Option.some_inj.mp hu
      have heql : (m : ℝ) - sd * (d : ℝ) = l := Option.some_inj.mp hl
      have hsd : 0 ≤ sd := bb_std_nonneg hs
      have hd2 : (0 : ℝ) ≤ (d : ℝ) := by exact_mod_cast hd
      have hmul : 0 ≤ sd * (d : ℝ) := mul_nonneg hsd hd2
      constructor
      · rw [← heql]
        linarith
      · rw [← hequ]
        linarith

/-- Witness for C7: the constant series [1, 1] with period 2: the sample
standard deviation of the window is 0, so all three bands are 1. -/
theorem bollinger_order_witness :
    (0 ≤ (2:ℚ)) ∧ BB_upper [1, 1] 2 2 1 = some 1 ∧ BB_middle [1, 1] 2 1 = some 1 ∧
      BB_lower [1, 1] 2 2 1 = some 1 ∧
      ((1:ℝ) ≤ ((1:ℚ) : ℝ) ∧ ((1:ℚ) : ℝ) ≤ (1:ℝ)) := by
  have hmid : BB_middle [1, 1] 2 1 = some 1 := by
    norm_num [BB_middle, rollingWindow, window, mean, List.sum_cons, List.sum_nil]
  have hvar : sampleVar [1, 1] = 0 := by
    norm_num [sampleVar, mean, List.sum_cons, List.sum_nil]
  have hstd : bb_std [1, 1] 2 1 = some 0 := by
    unfold bb_std rollingWindow sampleStd
    norm_num [window, hvar]
  have hu : BB_upper [1, 1] 2 2 1 = some 1 := by
    unfold BB_upper
    rw [hmid, hstd]
    norm_num
  have hl : BB_lower [1, 1] 2 2 1 = some 1 := by
    unfold BB_lower
    rw [hmid, hstd]
    norm_num
  exact ⟨by norm_num, hu, hmid, hl,
    bollinger_order [1, 1] 2 2 1 1 1 1 (by norm_num) hu hmid hl⟩

theorem listMin_replicate : ∀ (n : Nat), 1 ≤ n → ∀ x : ℚ, listMin (List.replicate n x) = x
  | 0, h, _ => absurd h (by omega)
  | 1, _, x => rfl
  | n + 2, _, x => by
      have ih := listMin_replicate (n + 1) (by omega) x
      have hrep : List.replicate (n + 2) x = x :: x :: List.replicate n x := rfl
      have hrep1 : List.replicate (n + 1) x = x :: List.replicate n x := rfl
      rw [hrep1] at ih
      rw [hrep]
      rw [show listMin (x :: x :: List.replicate n x) =
            min x (listMin (x :: List.replicate n x)) from rfl]
      rw [ih]
      exact min_self x

theorem listMax_replicate : ∀ (n : Nat), 1 ≤ n → ∀ x : ℚ, listMax (List.replicate n x) = x
  | 0, h, _ => absurd h (by omega)
  | 1, _, x => rfl
  | n + 2, _, x => by
      have ih := listMax_replicate (n + 1) (by omega) x
      have hrep : List.replicate (n + 2) x = x :: x :: List.replicate n x := rfl
      have hrep1 : List.replicate (n + 1) x = x :: List.replicate n x := rfl
      rw [hrep1] at ih
      rw [hrep]
      rw [show listMax (x :: x :: List.replicate n x) =
            max x (listMax (x :: List.replicate n x)) from rfl]
      rw [ih]
      exact max_self x

theorem window_replicate (n i p : Nat) (x : ℚ) (h1 : p ≤ i + 1) (h2 : i < n) :
    window (List.replicate n x) i p = List.replicate p x := by
  unfold window
  rw [List.take_replicate, List.drop_replicate]
  congr 1
  omega

/-- A bar violating the OHLC invariant: its high (0) is below its low (1).
Used to exhibit that the Fibonacci level ordering reverses on such input. -/
def bBar : Bar := ⟨1, 0, 1, 1, 0⟩

/-- C8 counterexample: the claim extends the Fibonacci ordering to series
whose bars violate low ≤ high, but on 14 copies of a bar with high 0 and
low 1 the rolling range is negative and the ordering reverses: at position
13, Fib_0 = 1 while Fib_236 = 191/250 < 1. -/
theorem fib_monotone_counterexample :
    ¬ (∀ (s : List Bar) (i : Nat) (f0 f236 f382 f500 f618 f100 : ℚ),
        Fib_0 s 14 i = some f0 → Fib_236 s 14 i = some f236 →
        Fib_382 s 14 i = some f382 → Fib_500 s 14 i = some f500 →
        Fib_618 s 14 i = some f618 → Fib_100 s 14 i = some f100 →
        f0 ≤ f236 ∧ f236 ≤ f382 ∧ f382 ≤ f500 ∧ f500 ≤ f618 ∧ f618 ≤ f100) := by
  intro h
  have hlo : low_min (List.replicate 14 bBar) 14 13 = some 1 := by
    unfold low_min rollingWindow
    rw [show lows (List.replicate 14 bBar) = List.replicate 14 (1:ℚ) by
      simp [lows, List.map_replicate, bBar]]
    rw [if_pos (by rw [List.length_replicate]; omega)]
    rw [window_replicate 14 13 14 1 (by omega) (by omega)]
    rw [Option.map_some', listMin_replicate 14 (by omega) 1]
  have hhi : high_max (List.replicate 14 bBar) 14 13 = some 0 := by
    unfold high_max rollingWindow
    rw [show highs (List.replicate 14 bBar) = List.replicate 14 (0:ℚ) by
      simp [highs, List.map_replicate, bBar]]
    rw [if_pos (by rw [List.length_replicate]; omega)]
    rw [window_replicate 14 13 14 0 (by omega) (by omega)]
    rw [Option.map_some', listMax_replicate 14 (by omega) 0]
  have h0 : Fib_0 (List.replicate 14 bBar) 14 13 = some 1 := hlo
  have h100 : Fib_100 (List.replicate 14 bBar) 14 13 = some 0 := hhi
  have h236 : Fib_236 (List.replicate 14 bBar) 14 13 = some (191/250) := by
    unfold Fib_236 fibLevel
    rw [hlo, hhi]
    simp only [Option.some_bind, Option.map_some']
    norm_num
  have h382 : Fib_382 (List.replicate 14 bBar) 14 13 = some (309/500) := by
    unfold Fib_382 fibLevel
    rw [hlo, hhi]
    simp only [Option.some_bind, Option.map_some']
    norm_num
  have h500 : Fib_500 (List.replicate 14 bBar) 14 13 = some (1/2) := by
    unfold Fib_500 fibLevel
    rw [hlo, hhi]
    simp only [Option.some_bind, Option.map_some']
    norm_num
  have h618 : Fib_618 (List.replicate 14 bBar) 14 13 = some (191/500) := by
    unfold Fib_618 fibLevel
    rw [hlo, hhi]
    simp only [Option.some_bind, Option.map_some']
    norm_num
  have hbad := h (List.replicate 14 bBar) 13 1 (191/250) (309/500) (1/2) (191/500) 0
    h0 h236 h382 h500 h618 h100
  exact absurd hbad.1 (by norm_num)

/-- C8 amended: on series whose bars satisfy the OHLC invariant low ≤ high
(the validity the data model expects of input), the Fibonacci levels are
monotonically non-decreasing, Fib_0 ≤ Fib_236 ≤ Fib_382 ≤ Fib_500 ≤
Fib_618 ≤ Fib_100, at every position where they are defined. -/
theorem fib_monotone (s : List Bar) (p i : Nat) (hp : 1 ≤ p)
    (hvalid : ∀ b ∈ s, b.low ≤ b.high)
    (f0 f236 f382 f500 f618 f100 : ℚ)
    (h0 : Fib_0 s p i = some f0) (h236 : Fib_236 s p i = some f236)
    (h382 : Fib_382 s p i = some f382) (h500 : Fib_500 s p i = some f500)
    (h618 : Fib_618 s p i = some f618) (h100 : Fib_100 s p i = some f100) :
    f0 ≤ f236 ∧ f236 ≤ f382 ∧ f382 ≤ f500 ∧ f500 ≤ f618 ∧ f618 ≤ f100 := by
  unfold Fib_0 low_min at h0
  unfold Fib_100 high_max at h100
  cases hwl : rollingWindow p (lows s) i with
  | none => rw [hwl] at h0; cases h0
  | some wl =>
      cases hwh : rollingWindow p (highs s) i with
      | none => rw [hwh] at h100; cases h100
      | some wh =>
          rw [hwl] at h0
          rw [hwh] at h100
          simp only [Option.map_some'] at h0 h100
          have hf0 : listMin wl = f0 := Option.some_inj.mp h0
          have hf100 : listMax wh = f100 := Option.some_inj.mp h100
          obtain ⟨hwleq, hle, hlenl⟩ := rollingWindow_eq_some hwl
          obtain ⟨hwheq, -, hlenh⟩ := rollingWindow_eq_some hwh
          have hil : i < s.length := by
            rw [lows_length] at hlenl
            exact hlenl
          have hmeml : (lows s)[i] ∈ wl := by
            rw [hwleq]
            exact mem_window_self hp hle hlenl
          have hmemh : (highs s)[i] ∈ wh := by
            rw [hwheq]
            exact mem_window_self hp hle hlenh
          have hlowi : (lows s)[i] = (s[i]).low := by
            simp [lows]
          have hhighi : (highs s)[i] = (s[i]).high := by
            simp [highs]
          have hbar : (s[i]).low ≤ (s[i]).high := hvalid _ (List.getElem_mem hil)
          have hd : f0 ≤ f100 := by
            rw [← hf0, ← hf100]
            calc listMin wl ≤ (lows s)[i] := listMin_le wl hmeml
              _ = (s[i]).low := hlowi
              _ ≤ (s[i]).high := hbar
              _ = (highs s)[i] := hhighi.symm
              _ ≤ listMax wh := le_listMax wh hmemh
          unfold Fib_236 fibLevel low_min high_max at h236
          unfold Fib_382 fibLevel low_min high_max at h382
          unfold Fib_500 fibLevel low_min high_max at h500
          unfold Fib_618 fibLevel low_min high_max at h618
          rw [hwl, hwh] at h236 h382 h500 h618
          simp only [Option.some_bind, Option.map_some'] at h236 h382 h500 h618
          have e236 : listMin wl + (listMax wh - listMin wl) * 0.236 = f236 :=
            Option.some_inj.mp h236
          have e382 : listMin wl + (listMax wh - listMin wl) * 0.382 = f382 :=
            Option.some_inj.mp h382
          have e500 : listMin wl + (listMax wh - listMin wl) * 0.500 = f500 :=
            Option.some_inj.mp h500
          have e618 : listMin wl + (listMax wh - listMin wl) * 0.618 = f618 :=
            Option.some_inj.mp h618
          rw [← hf0, ← hf100] at hd
          refine ⟨?_, ?_, ?_, ?_, ?_⟩
          · rw [← hf0, ← e236]
            nlinarith [hd]
          · rw [← e236, ← e382]
            nlinarith [hd]
          · rw [← e382, ← e500]
            nlinarith [hd]
          · rw [← e500, ← e618]
            nlinarith [hd]
          · rw [← e618, ← hf100]
            nlinarith [hd]

/-- A valid bar (low 1 ≤ close 3/2 ≤ high 2) for concrete witnesses. -/
def fBar : Bar := ⟨1, 2, 1, 3/2, 0⟩

/-- Witness for the amended C8: on the single valid bar `fBar` with period
1 the six Fibonacci levels at position 0 are 1, 309/250, 691/500, 3/2,
809/500 and 2, and they are non-decreasing. -/
theorem fib_monotone_witness :
    ((1:Nat) ≤ 1 ∧ (∀ b ∈ [fBar], b.low ≤ b.high) ∧
      Fib_0 [fBar] 1 0 = some 1 ∧ Fib_236 [fBar] 1 0 = some (309/250) ∧
      Fib_382 [fBar] 1 0 = some (691/500) ∧ Fib_500 [fBar] 1 0 = some (3/2) ∧
      Fib_618 [fBar] 1 0 = some (809/500) ∧ Fib_100 [fBar] 1 0 = some 2) ∧
    ((1:ℚ) ≤ 309/250 ∧ (309:ℚ)/250 ≤ 691/500 ∧ (691:ℚ)/500 ≤ 3/2 ∧
      (3:ℚ)/2 ≤ 809/500 ∧ (809:ℚ)/500 ≤ 2) := by
  have hvalid : ∀ b ∈ [fBar], b.low ≤ b.high := by
    intro b hb
    rw [List.mem_singleton] at hb
    subst hb
    norm_num [fBar]
  have hlo : low_min [fBar] 1 0 = some 1 := by
    norm_num [low_min, rollingWindow, window, lows, fBar, listMin]
  have hhi : high_max [fBar] 1 0 = some 2 := by
    norm_num [high_max, rollingWindow, window, highs, fBar, listMax]
  have h0 : Fib_0 [fBar] 1 0 = some 1 := hlo
  have h100 : Fib_100 [fBar] 1 0 = some 2 := hhi
  have h236 : Fib_236 [fBar] 1 0 = some (309/250) := by
    unfold Fib_236 fibLevel
    rw [hlo, hhi]
    simp only [Option.some_bind, Option.map_some']
    norm_num
  have h382 : Fib_382 [fBar] 1 0 = some (691/500) := by
    unfold Fib_382 fibLevel
    rw [hlo, hhi]
    simp only [Option.some_bind, Option.map_some']
    norm_num
  have h500 : Fib_500 [fBar] 1 0 = some (3/2) := by
    unfold Fib_500 fibLevel
    rw [hlo, hhi]
    simp only [Option.some_bind, Option.map_some']
    norm_num
  have h618 : Fib_618 [fBar] 1 0 = some (809/500) := by
    unfold Fib_618 fibLevel
    rw [hlo, hhi]
    simp only [Option.some_bind, Option.map_some']
    norm_num
  exact ⟨⟨le_refl 1, hvalid, h0, h236, h382, h500, h618, h100⟩,
    fib_monotone [fBar] 1 0 (le_refl 1) hvalid 1 (309/250) (691/500) (3/2) (809/500) 2
      h0 h236 h382 h500 h618 h100⟩

/-- C9 counterexample: the claim asserts R1 > PP > S1 for every bar with
high > low, but a bar whose close lies far below its low (high 1, low 0,
close -4 — tolerated, since the core does not enforce the OHLC invariant)
gives PP = -1, R1 = -2, S1 = -3, and PP < R1 fails. -/
theorem pivot_order_counterexample :
    ¬ (∀ (s : List Bar) (i : Nat) (b : Bar), s.get? i = some b → b.low < b.high →
        ∀ pp r1v s1v : ℚ, PP s i = some pp → R1 s i = some r1v → S1 s i = some s1v →
          s1v < pp ∧ pp < r1v) := by
  intro h
  have hpp : PP [(⟨1, 1, 0, -4, 0⟩ : Bar)] 0 = some (-1) := by
    unfold PP
    rw [List.get?_cons_zero, Option.map_some']
    norm_num
  have hr1 : R1 [(⟨1, 1, 0, -4, 0⟩ : Bar)] 0 = some (-2) := by
    unfold R1
    rw [hpp, Option.some_bind, List.get?_cons_zero, Option.map_some']
    norm_num
  have hs1 : S1 [(⟨1, 1, 0, -4, 0⟩ : Bar)] 0 = some (-3) := by
    unfold S1
    rw [hpp, Option.some_bind, List.get?_cons_zero, Option.map_some']
    norm_num
  have hbad := h [(⟨1, 1, 0, -4, 0⟩ : Bar)] 0 ⟨1, 1, 0, -4, 0⟩ rfl (by norm_num)
    (-1) (-2) (-3) hpp hr1 hs1
  exact absurd hbad.2 (by norm_num)

/-- C9 amended: the pivot columns PP, R1, S1, R2, S2 are defined at every
bar of the series with their per-bar values (no lookback window), and for
every bar that additionally satisfies the data model's validity bounds
low ≤ close ≤ high, high > low implies S1 < PP < R1. -/
theorem pivot_points (s : List Bar) (i : Nat) (b : Bar) (hb : s.get? i = some b) :
    PP s i = some ((b.high + b.low + b.close) / 3) ∧
    R1 s i = some (2 * ((b.high + b.low + b.close) / 3) - b.low) ∧
    S1 s i = some (2 * ((b.high + b.low + b.close) / 3) - b.high) ∧
    R2 s i = some ((b.high + b.low + b.close) / 3 + (b.high - b.low)) ∧
    S2 s i = some ((b.high + b.low + b.close) / 3 - (b.high - b.low)) ∧
    (b.low < b.high → b.low ≤ b.close → b.close ≤ b.high →
      2 * ((b.high + b.low + b.close) / 3) - b.high < (b.high + b.low + b.close) / 3 ∧
      (b.high + b.low + b.close) / 3 < 2 * ((b.high + b.low + b.close) / 3) - b.low) := by
  have hpp : PP s i = some ((b.high + b.low + b.close) / 3) := by
    unfold PP
    rw [hb, Option.map_some']
  refine ⟨hpp, ?_, ?_, ?_, ?_, ?_⟩
  · unfold R1
    rw [hpp, Option.some_bind, hb, Option.map_some']
  · unfold S1
    rw [hpp, Option.some_bind, hb, Option.map_some']
  · unfold R2
    rw [hpp, Option.some_bind, hb, Option.map_some']
  · unfold S2
    rw [hpp, Option.some_bind, hb, Option.map_some']
  · intro h1 h2 h3
    constructor
    · linarith
    · linarith

/-- Witness for the amended C9 at the single valid bar `fBar`: all five
pivot columns are defined at position 0 and the ordering premises hold. -/
theorem pivot_points_witness :
    ([fBar].get? 0 = some fBar ∧ fBar.low < fBar.high ∧
      fBar.low ≤ fBar.close ∧ fBar.close ≤ fBar.high) ∧
    (PP [fBar] 0 = some ((fBar.high + fBar.low + fBar.close) / 3) ∧
     R1 [fBar] 0 = some (2 * ((fBar.high + fBar.low + fBar.close) / 3) - fBar.low) ∧
     S1 [fBar] 0 = some (2 * ((fBar.high + fBar.low + fBar.close) / 3) - fBar.high) ∧
     R2 [fBar] 0 = some ((fBar.high + fBar.low + fBar.close) / 3 + (fBar.high - fBar.low)) ∧
     S2 [fBar] 0 = some ((fBar.high + fBar.low + fBar.close) / 3 - (fBar.high - fBar.low)) ∧
     (fBar.low < fBar.high → fBar.low ≤ fBar.close → fBar.close ≤ fBar.high →
       2 * ((fBar.high + fBar.low + fBar.close) / 3) - fBar.high <
         (fBar.high + fBar.low + fBar.close) / 3 ∧
       (fBar.high + fBar.low + fBar.close) / 3 <
         2 * ((fBar.high + fBar.low + fBar.close) / 3) - fBar.low)) :=
  ⟨⟨rfl, by norm_num [fBar], by norm_num [fBar], by norm_num [fBar]⟩,
    pivot_points [fBar] 0 fBar rfl⟩
